import Mathlib

/-!
# A shallow embedding of hancho's task-graph execution engine

This file embeds the core of `hancho.py` (a small build system) in Lean 4:
the `Rule` prototypal attribute store, the template expander
(`expand_async` / `flatten_async`), the staleness oracle (`needs_rerun`),
the per-task dispatch pipeline (`dispatch` / `async_call` / `run_command`),
the output registry, and the build counters.

Modelling conventions:

* Python values flowing through rules and templates are the inductive `Val`.
  `Val.vpromise v` is an awaitable (an `asyncio.Task`) whose resolved value
  is `v`; `Val.vcancel` is an instance of hancho's `Cancel` (a
  `BaseException` subclass used as a marker value).
* Exceptions are the `Exc` type returned through `Except`.  `Exc.error`
  stands for an ordinary Python `Exception` (ValueError, NameError,
  AssertionError, OSError, ...), `Exc.cancel` for a raised `Cancel`
  (which, being a `BaseException`, is *not* caught by
  `except Exception`).  `Exc.outOfGas` is a model artifact: the
  recursive interpreter functions carry a fuel parameter so that they are
  total; all theorems below supply ample fuel so that `outOfGas` never
  arises on the inputs considered.
* File mtimes are modelled as naturals (the source uses floats; only the
  ordering matters to the engine).
* The filesystem, the shell, Python `eval`, and user callables are
  external capabilities collected in `Env` / threaded through `FS`.
  `FS.log` records each shell command spawned, so that "task X never ran
  its command" is an observable statement of the model.
* In the source, `Rule.base` is stored as an ordinary dict entry and
  `Rule.__missing__` tests `if self.base:`; since every constructed rule
  dict is non-empty (it always holds at least its own `base` and
  `task_dir` entries), that truthiness test is equivalent to
  `base is not None`, which is how the chain is modelled here
  (`Rule.mk entries base` with `base : Option Rule`).
-/

namespace Hancho

/-- A POSIX path: absolute or relative, as a list of components.
`pathlib` collapses empty components and single dots at construction, so
components here are the `.parts` of a `PurePosixPath`. -/
inductive FPath where
  | abs (parts : List String)
  | rel (parts : List String)
deriving DecidableEq, Repr

/-- Exceptions.  `error` = an ordinary Python `Exception` with its message,
`cancel` = a raised hancho `Cancel` (a `BaseException`, invisible to
`except Exception`), `outOfGas` = model-artifact fuel exhaustion. -/
inductive Exc where
  | error (msg : String)
  | cancel
  | outOfGas
deriving DecidableEq, Repr

/-- `except Exception` catches exactly the ordinary-exception constructor. -/
def Exc.isException : Exc → Bool
  | .error _ => true
  | _ => false

/-- Python values that flow through rules, templates and task promises. -/
inductive Val where
  | vnone
  | vstr (s : String)
  | vint (n : Int)
  | vbool (b : Bool)
  | vlist (xs : List Val)
  | vpath (p : FPath)
  | vfunc (name : String)
  | vpromise (resolved : Val)
  | vcancel

/- Decidable equality for `Val`, written out by hand: the automatic
deriving handler does not support this nested inductive. -/
mutual

def valDecEq : (a b : Val) → Decidable (a = b)
  | .vnone, .vnone => isTrue rfl
  | .vnone, .vstr _ => isFalse (fun h => nomatch h)
  | .vnone, .vint _ => isFalse (fun h => nomatch h)
  | .vnone, .vbool _ => isFalse (fun h => nomatch h)
  | .vnone, .vlist _ => isFalse (fun h => nomatch h)
  | .vnone, .vpath _ => isFalse (fun h => nomatch h)
  | .vnone, .vfunc _ => isFalse (fun h => nomatch h)
  | .vnone, .vpromise _ => isFalse (fun h => nomatch h)
  | .vnone, .vcancel => isFalse (fun h => nomatch h)
  | .vstr _, .vnone => isFalse (fun h => nomatch h)
  | .vstr a, .vstr b =>
    match decEq a b with
    | isTrue h => isTrue (by rw [h])
    | isFalse h => isFalse (fun hh => h (by injection hh))
  | .vstr _, .vint _ => isFalse (fun h => nomatch h)
  | .vstr _, .vbool _ => isFalse (fun h => nomatch h)
  | .vstr _, .vlist _ => isFalse (fun h => nomatch h)
  | .vstr _, .vpath _ => isFalse (fun h => nomatch h)
  | .vstr _, .vfunc _ => isFalse (fun h => nomatch h)
  | .vstr _, .vpromise _ => isFalse (fun h => nomatch h)
  | .vstr _, .vcancel => isFalse (fun h => nomatch h)
  | .vint _, .vnone => isFalse (fun h => nomatch h)
  | .vint _, .vstr _ => isFalse (fun h => nomatch h)
  | .vint a, .vint b =>
    match decEq a b with
    | isTrue h => isTrue (by rw [h])
    | isFalse h => isFalse (fun hh => h (by injection hh))
  | .vint _, .vbool _ => isFalse (fun h => nomatch h)
  | .vint _, .vlist _ => isFalse (fun h => nomatch h)
  | .vint _, .vpath _ => isFalse (fun h => nomatch h)
  | .vint _, .vfunc _ => isFalse (fun h => nomatch h)
  | .vint _, .vpromise _ => isFalse (fun h => nomatch h)
  | .vint _, .vcancel => isFalse (fun h => nomatch h)
  | .vbool _, .vnone => isFalse (fun h => nomatch h)
  | .vbool _, .vstr _ => isFalse (fun h => nomatch h)
  | .vbool _, .vint _ => isFalse (fun h => nomatch h)
  | .vbool a, .vbool b =>
    match decEq a b with
    | isTrue h => isTrue (by rw [h])
    | isFalse h => isFalse (fun hh => h (by injection hh))
  | .vbool _, .vlist _ => isFalse (fun h => nomatch h)
  | .vbool _, .vpath _ => isFalse (fun h => nomatch h)
  | .vbool _, .vfunc _ => isFalse (fun h => nomatch h)
  | .vbool _, .vpromise _ => isFalse (fun h => nomatch h)
  | .vbool _, .vcancel => isFalse (fun h => nomatch h)
  | .vlist _, .vnone => isFalse (fun h => nomatch h)
  | .vlist _, .vstr _ => isFalse (fun h => nomatch h)
  | .vlist _, .vint _ => isFalse (fun h => nomatch h)
  | .vlist _, .vbool _ => isFalse (fun h => nomatch h)
  | .vlist a, .vlist b =>
    match valListDecEq a b with
    | isTrue h => isTrue (by rw [h])
    | isFalse h => isFalse (fun hh => h (by injection hh))
  | .vlist _, .vpath _ => isFalse (fun h => nomatch h)
  | .vlist _, .vfunc _ => isFalse (fun h => nomatch h)
  | .vlist _, .vpromise _ => isFalse (fun h => nomatch h)
  | .vlist _, .vcancel => isFalse (fun h => nomatch h)
  | .vpath _, .vnone => isFalse (fun h => nomatch h)
  | .vpath _, .vstr _ => isFalse (fun h => nomatch h)
  | .vpath _, .vint _ => isFalse (fun h => nomatch h)
  | .vpath _, .vbool _ => isFalse (fun h => nomatch h)
  | .vpath _, .vlist _ => isFalse (fun h => nomatch h)
  | .vpath a, .vpath b =>
    match decEq a b with
    | isTrue h => isTrue (by rw [h])
    | isFalse h => isFalse (fun hh => h (by injection hh))
  | .vpath _, .vfunc _ => isFalse (fun h => nomatch h)
  | .vpath _, .vpromise _ => isFalse (fun h => nomatch h)
  | .vpath _, .vcancel => isFalse (fun h => nomatch h)
  | .vfunc _, .vnone => isFalse (fun h => nomatch h)
  | .vfunc _, .vstr _ => isFalse (fun h => nomatch h)
  | .vfunc _, .vint _ => isFalse (fun h => nomatch h)
  | .vfunc _, .vbool _ => isFalse (fun h => nomatch h)
  | .vfunc _, .vlist _ => isFalse (fun h => nomatch h)
  | .vfunc _, .vpath _ => isFalse (fun h => nomatch h)
  | .vfunc a, .vfunc b =>
    match decEq a b with
    | isTrue h => isTrue (by rw [h])
    | isFalse h => isFalse (fun hh => h (by injection hh))
  | .vfunc _, .vpromise _ => isFalse (fun h => nomatch h)
  | .vfunc _, .vcancel => isFalse (fun h => nomatch h)
  | .vpromise _, .vnone => isFalse (fun h => nomatch h)
  | .vpromise _, .vstr _ => isFalse (fun h => nomatch h)
  | .vpromise _, .vint _ => isFalse (fun h => nomatch h)
  | .vpromise _, .vbool _ => isFalse (fun h => nomatch h)
  | .vpromise _, .vlist _ => isFalse (fun h => nomatch h)
  | .vpromise _, .vpath _ => isFalse (fun h => nomatch h)
  | .vpromise _, .vfunc _ => isFalse (fun h => nomatch h)
  | .vpromise a, .vpromise b =>
    match valDecEq a b with
    | isTrue h => isTrue (by rw [h])
    | isFalse h => isFalse (fun hh => h (by injection hh))
  | .vpromise _, .vcancel => isFalse (fun h => nomatch h)
  | .vcancel, .vnone => isFalse (fun h => nomatch h)
  | .vcancel, .vstr _ => isFalse (fun h => nomatch h)
  | .vcancel, .vint _ => isFalse (fun h => nomatch h)
  | .vcancel, .vbool _ => isFalse (fun h => nomatch h)
  | .vcancel, .vlist _ => isFalse (fun h => nomatch h)
  | .vcancel, .vpath _ => isFalse (fun h => nomatch h)
  | .vcancel, .vfunc _ => isFalse (fun h => nomatch h)
  | .vcancel, .vpromise _ => isFalse (fun h => nomatch h)
  | .vcancel, .vcancel => isTrue rfl


def valListDecEq : (as bs : List Val) → Decidable (as = bs)
  | [], [] => isTrue rfl
  | [], _ :: _ => isFalse (fun h => nomatch h)
  | _ :: _, [] => isFalse (fun h => nomatch h)
  | a :: as, b :: bs =>
    match valDecEq a b, valListDecEq as bs with
    | isTrue h1, isTrue h2 => isTrue (by rw [h1, h2])
    | isFalse h1, _ => isFalse (fun h => h1 (by injection h))
    | isTrue _, isFalse h2 => isFalse (fun h => h2 (by injection h))

end

instance : DecidableEq Val := valDecEq


/-- A hancho `Rule`: a frame of attributes plus an optional base rule
(prototypal inheritance via `__missing__`). -/
inductive Rule where
  | mk (entries : List (String × Val)) (base : Option Rule)

/-- Attribute lookup on the local frame only. -/
def lookupEntry : List (String × Val) → String → Option Val
  | [], _ => none
  | (k, v) :: rest, key => if k = key then some v else lookupEntry rest key

/-- `Rule.__missing__` / `__getattr__`: walk the inheritance chain; a
terminal miss returns `None`. -/
def ruleGet : Rule → String → Val
  | .mk entries base, key =>
    match lookupEntry entries key with
    | some v => v
    | none =>
      match base with
      | some b => ruleGet b key
      | none => .vnone

/-- `Rule.__setattr__` / `__setitem__`: set on the local frame (the new
entry shadows any older one). -/
def ruleSet (r : Rule) (key : String) (v : Val) : Rule :=
  match r with
  | .mk entries base => .mk ((key, v) :: entries) base

/-- `Rule.extend(**kwargs)`: a child rule whose base is `self`. -/
def ruleExtend (r : Rule) (kwargs : List (String × Val)) : Rule :=
  .mk kwargs (some r)

/-- Python truthiness for the value shapes above. -/
def pyTruthy : Val → Bool
  | .vnone => false
  | .vstr s => s ≠ ""
  | .vint n => n ≠ 0
  | .vbool b => b
  | .vlist xs => xs ≠ []
  | .vpath _ => true
  | .vfunc _ => true
  | .vpromise _ => true
  | .vcancel => true

instance {ε α : Type} [DecidableEq ε] [DecidableEq α] : DecidableEq (Except ε α)
  | .ok a, .ok b =>
    match decEq a b with
    | isTrue h => isTrue (by rw [h])
    | isFalse h => isFalse (fun hh => h (by injection hh))
  | .ok _, .error _ => isFalse (fun h => nomatch h)
  | .error _, .ok _ => isFalse (fun h => nomatch h)
  | .error a, .error b =>
    match decEq a b with
    | isTrue h => isTrue (by rw [h])
    | isFalse h => isFalse (fun hh => h (by injection hh))

/-! ## Paths

`pathlib.PurePosixPath` semantics: constructing a path from a string
collapses repeated slashes and single-dot components (but keeps `..`);
`a / b` replaces `a` entirely when `b` is absolute; `relative_to` strips a
prefix or raises `ValueError`; `resolve()` absolutizes against the cwd and
folds `..` components (symlinks are not modelled). -/

/-- Split a character list on `/`. -/
def splitSlashAux : List Char → List Char → List String
  | [], acc => [String.mk acc.reverse]
  | c :: rest, acc =>
    if c = '/' then String.mk acc.reverse :: splitSlashAux rest []
    else splitSlashAux rest (c :: acc)

/-- `PurePosixPath(s).parts` minus the root marker: split on `/`,
collapsing empty components and single dots. -/
def pathParts (s : String) : List String :=
  (splitSlashAux s.data []).filter (fun p => p ≠ "" && p ≠ ".")

/-- `Path(s)`. -/
def mkPath (s : String) : FPath :=
  match s.data with
  | c :: _ => if c = '/' then .abs (pathParts s) else .rel (pathParts s)
  | [] => .rel []

/-- `str(path)`. -/
def pathStr : FPath → String
  | .abs ps => "/" ++ String.intercalate "/" ps
  | .rel ps => if ps = [] then "." else String.intercalate "/" ps

/-- `a / b` (Python `Path.__truediv__`): an absolute right operand wins. -/
def joinP (a b : FPath) : FPath :=
  match b with
  | .abs _ => b
  | .rel bs =>
    match a with
    | .abs as_ => .abs (as_ ++ bs)
    | .rel as_ => .rel (as_ ++ bs)

/-- `p.relative_to(root)` for an absolute `root`: strip the prefix, raise
`ValueError` otherwise (also when `p` itself is relative). -/
def relTo (p : FPath) (root : List String) : Except Exc FPath :=
  match p with
  | .abs ps =>
    if root.isPrefixOf ps then .ok (.rel (ps.drop root.length))
    else .error (.error "relative_to: not a subpath")
  | .rel _ => .error (.error "relative_to: not a subpath")

/-- Fold `..` components (the kernel-side step of `resolve()` / `stat()`). -/
def normParts (ps : List String) : List String :=
  ps.foldl (fun acc p => if p = ".." then acc.dropLast else acc ++ [p]) []

/-- `p.resolve()` with cwd = `root` and no symlinks. -/
def resolveP (root : List String) : FPath → FPath
  | .abs ps => .abs (normParts ps)
  | .rel ps => .abs (normParts (root ++ ps))

/-- `os.path.relpath(target, base)` on component lists. -/
def relpathParts : List String → List String → List String
  | x :: xs, y :: ys =>
    if x = y then relpathParts xs ys
    else List.replicate (y :: ys).length ".." ++ (x :: xs)
  | xs, [] => xs
  | [], ys => List.replicate ys.length ".."

/-- `os.path.relpath(target, base)` for absolute paths (the use at the
duplicate-output error message; both arguments are absolute there). -/
def relpathStr (target : FPath) (base : List String) : String :=
  match target with
  | .abs ps =>
    match relpathParts ps base with
    | [] => "."
    | parts => String.intercalate "/" parts
  | .rel ps => pathStr (.rel ps)

/-- `str(template)` for the value shapes reaching the stringification step
of `expand_async` (promises, cancels, `None` and lists are intercepted
before it). -/
def pythonStr : Val → String
  | .vnone => "None"
  | .vstr s => s
  | .vint n => toString n
  | .vbool b => if b then "True" else "False"
  | .vpath p => pathStr p
  | .vfunc name => "<function " ++ name ++ ">"
  | .vpromise _ => "<task>"
  | .vcancel => "Cancel()"
  | .vlist _ => "<list>"

/-! ## The external world -/

/-- A shell command's outcome (`asyncio.create_subprocess_shell` +
`communicate`). -/
structure ProcResult where
  stdout : String
  stderr : String
  returncode : Int
deriving DecidableEq, Repr

/-- Filesystem snapshot plus the trace of shell commands spawned so far.
`files` maps resolved absolute paths to mtimes; `contents` maps resolved
absolute paths to file text (for depfiles).  `log` is model
instrumentation: `run_command` records every shell spawn in it, which is
what lets a theorem state that a task never executed its command. -/
structure FS where
  files : List (FPath × Nat)
  contents : List (FPath × String)
  log : List String
deriving DecidableEq, Repr

def lookupFS {α : Type} (m : List (FPath × α)) (p : FPath) : Option α :=
  (m.find? (fun e => e.1 = p)).map (·.2)

/-- The ambient build session: project root (`hancho_root`), the loaded
build-file set (`hancho_mods.keys()`), and the external capabilities —
Python `eval` over a rule's attribute chain, the shell, and user-supplied
callable commands. -/
structure Env where
  root : List String
  mods : List FPath
  evalE : Rule → String → Except Exc Val
  runShell : String → Val → FS → ProcResult × FS
  callFn : String → Rule → FS → Except Exc Val × FS

/-- `mtime(f)` / `Path(f).stat().st_mtime`: a relative path resolves
against the cwd, which is the project root while tasks run. -/
def mtimeOf (env : Env) (fs : FS) (p : FPath) : Option Nat :=
  lookupFS fs.files (resolveP env.root p)

/-- `Path(f).exists()`. -/
def existsF (env : Env) (fs : FS) (p : FPath) : Bool :=
  (mtimeOf env fs p).isSome

/-- Read a text file (used for depfiles); `none` when missing. -/
def readF (env : Env) (fs : FS) (p : FPath) : Option String :=
  lookupFS fs.contents (resolveP env.root p)

/-! ## Python string helpers -/

/-- ASCII whitespace as recognised by `str.split()` (the unicode cases are
not modelled). -/
def isPySpace (c : Char) : Bool :=
  c = ' ' || c = '\t' || c = '\n' || c = '\r' ||
  c = Char.ofNat 11 || c = Char.ofNat 12

def splitWSAux : List Char → List Char → List String
  | [], acc => if acc.isEmpty then [] else [String.mk acc.reverse]
  | c :: rest, acc =>
    if isPySpace c then
      if acc.isEmpty then splitWSAux rest []
      else String.mk acc.reverse :: splitWSAux rest []
    else splitWSAux rest (c :: acc)

/-- Python `str.split()` with no arguments: split on runs of whitespace,
dropping empty tokens. -/
def pySplitWS (s : String) : List String :=
  splitWSAux s.data []

/-! ## The template expander

`template_regex = re.compile("{[^}]*}")` and
`expand_async` / `flatten_async` (hancho.py lines 328–405).

The Python functions recurse through `eval` results of unbounded size, so
the embedding carries a fuel parameter `gas`, decremented on every call;
`Exc.outOfGas` never arises in any theorem below (ample fuel is supplied).
The source's `depth` counter is kept verbatim, including its exact
`depth == 10` check. -/

def obrace : Char := Char.ofNat 123

def cbrace : Char := Char.ofNat 125

/-- Everything up to the first `}` (the `[^}]*}` part of the regex). -/
def splitAtClose : List Char → Option (List Char × List Char)
  | [] => none
  | c :: rest =>
    if c = cbrace then some ([], rest)
    else (splitAtClose rest).map (fun ia => (c :: ia.1, ia.2))

/-- `template_regex.search`: the leftmost `{[^}]*}` match, returned as
(text before the span, span interior, text after the span).  A `{` with no
later `}` matches nothing — and then nothing later can match either. -/
def findSpan : List Char → Option (List Char × List Char × List Char)
  | [] => none
  | c :: rest =>
    if c = obrace then
      match splitAtClose rest with
      | some (interior, after) => some ([], interior, after)
      | none => none
    else
      (findSpan rest).map (fun bia => (c :: bia.1, bia.2.1, bia.2.2))

/-- The literal text of a span, braces included (`exp` in the source). -/
def spanLit (interior : List Char) : String :=
  String.mk (obrace :: (interior ++ [cbrace]))

/-- All-strings check done implicitly by `" ".join(template)`: joining a
list containing a non-string raises `TypeError`. -/
def strsOf : List Val → Option (List String)
  | [] => some []
  | .vstr s :: rest => (strsOf rest).map (fun ss => s :: ss)
  | _ => none

def joinSpace (parts : List Val) : Except Exc String :=
  match strsOf parts with
  | some ss => .ok (String.intercalate " " ss)
  | none => .error (.error "join TypeError")

mutual

/-- `expand_async(rule, template, depth=0)` (hancho.py 331–382): depth
check, await, Cancel re-raise, function assert, `None` → `""`, list →
flatten + single-space join, non-string → `str`, then the span loop. -/
def expand_async (gas : Nat) (env : Env) (rule : Rule) (template : Val)
    (depth : Nat) : Except Exc String :=
  match gas with
  | 0 => .error .outOfGas
  | g + 1 =>
    if depth = 10 then
      .error (.error "failed to terminate")
    else
      let template := match template with
        | .vpromise v => v
        | t => t
      match template with
      | .vcancel => .error .cancel
      | .vfunc _ => .error (.error "AssertionError: isfunction")
      | .vnone => .ok ""
      | .vlist xs =>
        match flatten_async g env rule (.vlist xs) (depth + 1) with
        | .error e => .error e
        | .ok parts => joinSpace parts
      | t =>
        let s := match t with
          | .vstr s => s
          | other => pythonStr other
        expand_spans g env rule s.data depth
termination_by structural gas

/-- The `while span := template_regex.search(template)` loop of
`expand_async` (hancho.py 368–382).  The `try` block wraps both the
`eval` of the span interior and the recursive expansion of its result;
`except Exception` keeps the literal span and continues — but a raised
`Cancel` is a `BaseException` and passes through. -/
def expand_spans (gas : Nat) (env : Env) (rule : Rule) (cs : List Char)
    (depth : Nat) : Except Exc String :=
  match gas with
  | 0 => .error .outOfGas
  | g + 1 =>
    match findSpan cs with
    | none => .ok (String.mk cs)
    | some (before, interior, after) =>
      let attempt : Except Exc String :=
        match env.evalE rule (String.mk interior) with
        | .error e => .error e
        | .ok repl => expand_async g env rule repl (depth + 1)
      match attempt with
      | .ok replacement =>
        match expand_spans g env rule after depth with
        | .ok rest => .ok (String.mk before ++ replacement ++ rest)
        | .error e => .error e
      | .error e =>
        if e.isException then
          match expand_spans g env rule after depth with
          | .ok rest => .ok (String.mk before ++ spanLit interior ++ rest)
          | .error e2 => .error e2
        else .error e
termination_by structural gas

/-- `flatten_async(rule, elements, depth=0)` (hancho.py 385–405): wrap a
non-list, then walk the elements. -/
def flatten_async (gas : Nat) (env : Env) (rule : Rule) (elements : Val)
    (depth : Nat) : Except Exc (List Val) :=
  match gas with
  | 0 => .error .outOfGas
  | g + 1 =>
    let els := match elements with
      | .vlist xs => xs
      | v => [v]
    flatten_list g env rule els depth
termination_by structural gas

/-- The element loop of `flatten_async`: functions pass through unchanged,
sublists are flattened at `depth + 1` and spliced, every other element is
expanded at `depth + 1` and appended as a string. -/
def flatten_list (gas : Nat) (env : Env) (rule : Rule) (els : List Val)
    (depth : Nat) : Except Exc (List Val) :=
  match gas with
  | 0 => .error .outOfGas
  | g + 1 =>
    match els with
    | [] => .ok []
    | e :: rest =>
      let head : Except Exc (List Val) :=
        match e with
        | .vfunc f => .ok [Val.vfunc f]
        | .vlist xs => flatten_async g env rule (.vlist xs) (depth + 1)
        | _ => (expand_async g env rule e (depth + 1)).map (fun s => [Val.vstr s])
      match head with
      | .error err => .error err
      | .ok vs =>
        match flatten_list g env rule rest depth with
        | .error err => .error err
        | .ok tail => .ok (vs ++ tail)
termination_by structural gas

end

/-- Python identifier test (ASCII letters, digits, underscore). -/
def isPyIdent (s : String) : Bool :=
  match s.data with
  | [] => false
  | c :: rest => (c.isAlpha || c = '_') && rest.all (fun d => d.isAlphanum || d = '_')

/-- Model of `eval(expr, globals(), rule)` for the expression forms the
theorems exercise.  A bare identifier resolves through the rule's
attribute chain: name lookup goes to the rule dict first and
`dict.__getitem__` falls back to `Rule.__missing__`, so identifier lookup
never raises — a terminal miss yields `None`.  Any other expression shape
is modelled as raising (the scenarios below only evaluate identifiers and
deliberately-raising expressions). -/
def evalId (rule : Rule) (expr : String) : Except Exc Val :=
  if isPyIdent expr then .ok (ruleGet rule expr) else .error (.error "eval raised")

/-! ## The staleness oracle

`Rule.needs_rerun` (hancho.py 682–742) and the GCC depfile parser embedded
in it (lines 724–726, the `os.name == "posix"` branch). -/

/-- GCC `.d` parsing: `depfile.read().split()`, then
`[d for d in deplines[1:] if d != "\\"]`. -/
def parseGccDepfile (contents : String) : List String :=
  ((pySplitWS contents).drop 1).filter (fun d => d ≠ "\\")

/-- `mtime(f)` over a list; a missing file raises `FileNotFoundError`
(an `OSError`, hence an ordinary `Exception`). -/
def mtimesOf (env : Env) (fs : FS) (ps : List FPath) : Except Exc (List Nat) :=
  ps.mapM (fun p =>
    match mtimeOf env fs p with
    | some m => Except.ok m
    | none => Except.error (.error "FileNotFoundError"))

/-- Python `max()` of a generator: raises `ValueError` on an empty one. -/
def pyMax : List Nat → Except Exc Nat
  | [] => .error (.error "max() arg is an empty sequence")
  | x :: xs => .ok (xs.foldl max x)

/-- Python `min()` of a generator: raises `ValueError` on an empty one. -/
def pyMin : List Nat → Except Exc Nat
  | [] => .error (.error "min() arg is an empty sequence")
  | x :: xs => .ok (xs.foldl min x)

/-- The rebuild reasons, in the order the source can return them (each
constructor stands for the corresponding f-string message). -/
inductive Reason where
  | forced
  | noInputs
  | noOutputs
  | missingOutput
  | buildFilesChanged
  | manualDepChanged
  | depfileDepChanged
  | inputChanged
deriving DecidableEq, Repr

/-- `Rule.needs_rerun(self)` (hancho.py 682–742).  The reads of
`self.force`, `self.abs_files_in`, `self.abs_files_out`, `self.deps` and
`self.depfile` are passed as parameters (dispatch stores exactly these
values on the task rule right before calling it); `rule` is `self`, used
to expand the `depfile` template.  `self.deps` holds root-relative paths
at this point and `mtime` resolves them against the cwd, the project
root. -/
def needs_rerun (gas : Nat) (env : Env) (fs : FS) (force : Val)
    (abs_files_in abs_files_out deps : List FPath) (depfile : Val)
    (rule : Rule) : Except Exc (Option Reason) := do
  if pyTruthy force then
    return some .forced
  if abs_files_in = [] then
    return some .noInputs
  if abs_files_out = [] then
    return some .noOutputs
  if abs_files_out.any (fun f => !existsF env fs f) then
    return some .missingOutput
  let min_out ← pyMin (← mtimesOf env fs abs_files_out)
  if (← pyMax (← mtimesOf env fs env.mods)) ≥ min_out then
    return some .buildFilesChanged
  if deps ≠ [] then
    if (← pyMax (← mtimesOf env fs deps)) ≥ min_out then
      return some .manualDepChanged
  if pyTruthy depfile then
    let dstr ← expand_async gas env rule depfile 0
    let abs_depfile := joinP (.abs env.root) (mkPath dstr)
    match readF env fs abs_depfile with
    | none => pure ()
    | some contents =>
      let deplines := parseGccDepfile contents
      if deplines ≠ [] then
        if (← pyMax (← mtimesOf env fs (deplines.map mkPath))) ≥ min_out then
          return some .depfileDepChanged
  if abs_files_in ≠ [] then
    if (← pyMax (← mtimesOf env fs abs_files_in)) ≥ min_out then
      return some .inputChanged
  return none

/-- Modelled from the spec (§4.C "Staleness oracle"): the ordered checks
written as the spec lists them — force; no inputs; no outputs; missing
output; build-file mtimes; manual deps; depfile deps; input mtimes; null —
each mtime comparison being `max(...) ≥ min(mtime(output))`.  The spec's
check 8 has no separate "inputs nonempty" guard (the code's guard is
redundant there); otherwise the error behaviour ("missing input files
propagate an I/O error") is the same. -/
def needs_rerun_spec (gas : Nat) (env : Env) (fs : FS) (force : Val)
    (abs_files_in abs_files_out deps : List FPath) (depfile : Val)
    (rule : Rule) : Except Exc (Option Reason) := do
  if pyTruthy force then
    return some .forced
  if abs_files_in = [] then
    return some .noInputs
  if abs_files_out = [] then
    return some .noOutputs
  if abs_files_out.any (fun f => !existsF env fs f) then
    return some .missingOutput
  let min_out ← pyMin (← mtimesOf env fs abs_files_out)
  if (← pyMax (← mtimesOf env fs env.mods)) ≥ min_out then
    return some .buildFilesChanged
  if deps ≠ [] then
    if (← pyMax (← mtimesOf env fs deps)) ≥ min_out then
      return some .manualDepChanged
  if pyTruthy depfile then
    let dstr ← expand_async gas env rule depfile 0
    let abs_depfile := joinP (.abs env.root) (mkPath dstr)
    match readF env fs abs_depfile with
    | none => pure ()
    | some contents =>
      let deplines := parseGccDepfile contents
      if deplines ≠ [] then
        if (← pyMax (← mtimesOf env fs (deplines.map mkPath))) ≥ min_out then
          return some .depfileDepChanged
  if (← pyMax (← mtimesOf env fs abs_files_in)) ≥ min_out then
    return some .inputChanged
  return none

/-! ## The task scheduler

`Rule.__call__`, `Rule.async_call`, `Rule.dispatch`, `Rule.run_command`
(hancho.py 480–676) and the global counters of `async_main`.

The source mutates attributes on the task rule in place
(`self.files_in = ...`); the model threads the updated rule explicitly
(`r1`, `r2`, ...), with each `ruleSet` matching one assignment.  `mkdir`
calls are not modelled (the `FS` model tracks files, not directories, and
nothing downstream observes them). -/

/-- The global counters and the output registry (`this.tasks_total`,
`this.tasks_pass`, `this.tasks_fail`, `this.tasks_skip`,
`this.task_counter`, `this.hancho_outs`). -/
structure BuildState where
  hancho_outs : List FPath
  tasks_total : Nat
  tasks_pass : Nat
  tasks_fail : Nat
  tasks_skip : Nat
  task_counter : Nat
deriving DecidableEq, Repr

/-- The message text of a reason (stored into `self.reason`). -/
def reasonStr : Reason → String
  | .forced => "forced to rebuild"
  | .noInputs => "Always rebuild a target with no inputs"
  | .noOutputs => "Always rebuild a target with no outputs"
  | .missingOutput => "some are missing"
  | .buildFilesChanged => "hancho files have changed"
  | .manualDepChanged => "a manual dependency has changed"
  | .depfileDepChanged => "a dependency in the depfile has changed"
  | .inputChanged => "an input has changed"

/-- List comprehensions over flatten results must see strings:
`self.src_dir / f` with a non-string `f` raises `TypeError`. -/
def toStrs : List Val → Except Exc (List String)
  | [] => .ok []
  | .vstr s :: rest => (toStrs rest).map (fun ss => s :: ss)
  | _ :: _ => .error (.error "TypeError: unsupported operand")

/-- The duplicate-output check loop (hancho.py 564–570): resolve each
output, raise `NameError` on the first one already registered, inserting
the earlier ones as it goes (the insertions made before the duplicate
stay in the registry). -/
def register_outs (env : Env) : List FPath → List FPath → List FPath × Option FPath
  | outs, [] => (outs, none)
  | outs, f :: rest =>
    let res := resolveP env.root f
    if res ∈ outs then (outs, some res)
    else register_outs env (outs ++ [res]) rest

/-- `Rule.run_command(self, command)` (hancho.py 627–676).  Returns the
possibly-updated filesystem, the rule with `stdout`/`stderr`/`returncode`
stored, and the command's result: `self.abs_files_out` on a dry run, the
callable's own awaited value (`None` is an error), or — for a shell
command that exits 0 — `self.files_out`, which at this point holds the
root-relative output list.  Each shell spawn is appended to `FS.log`. -/
def run_command (env : Env) (fs : FS) (r : Rule) (command : Val) :
    FS × Rule × Except Exc Val :=
  if pyTruthy (ruleGet r "dryrun") then
    (fs, r, .ok (ruleGet r "abs_files_out"))
  else
    match command with
    | .vfunc f =>
      let (res, fs') := env.callFn f r fs
      match res with
      | .error e => (fs', r, .error e)
      | .ok v =>
        let v := match v with
          | .vpromise inner => inner
          | t => t
        match v with
        | .vnone => (fs', r, .error (.error "Command returned None"))
        | _ => (fs', r, .ok v)
    | .vstr c =>
      let (proc, fs1) := env.runShell c (ruleGet r "task_dir") fs
      let fs2 := { fs1 with log := fs1.log ++ [c] }
      let r1 := ruleSet (ruleSet (ruleSet r "stdout" (.vstr proc.stdout))
        "stderr" (.vstr proc.stderr)) "returncode" (.vint proc.returncode)
      if proc.returncode ≠ 0 then
        (fs2, r1, .error (.error "Command exited with nonzero return code"))
      else
        (fs2, r1, .ok (ruleGet r1 "files_out"))
    | _ => (fs, r, .error (.error "Don't know what to do with command"))

/-- The command loop of `dispatch` (hancho.py 608–610): `result = []`,
then `result = await self.run_command(command)` for each command; the
accumulator argument starts as the empty list. -/
def run_commands (env : Env) : FS → Rule → List Val → Val →
    FS × Rule × Except Exc Val
  | fs, r, [], result => (fs, r, .ok result)
  | fs, r, c :: rest, _result =>
    match run_command env fs r c with
    | (fs', r', .error e) => (fs', r', .error e)
    | (fs', r', .ok v) => run_commands env fs' r' rest v

/-- `Rule.dispatch(self)` (hancho.py 521–621): expand the description,
validate, flatten-and-await the filename lists, canonicalize paths,
register outputs, consult the staleness oracle (skip when clean), expand
and run the commands, re-consult the oracle, and count a pass. -/
def dispatch (gas : Nat) (env : Env) (fs : FS) (st : BuildState) (r0 : Rule) :
    FS × BuildState × Except Exc Val :=
  match expand_async gas env r0 (ruleGet r0 "desc") 0 with
  | .error e => (fs, st, .error e)
  | .ok _desc =>
  if !pyTruthy (ruleGet r0 "command") then
    (fs, st, .error (.error "Command missing for input files!"))
  else if ruleGet r0 "files_in" = .vnone then
    (fs, st, .error (.error "Task missing files_in"))
  else if ruleGet r0 "files_out" = .vnone then
    (fs, st, .error (.error "Task missing files_out"))
  else
  match flatten_async gas env r0 (ruleGet r0 "files_in") 0 with
  | .error e => (fs, st, .error e)
  | .ok fin =>
  let r1 := ruleSet r0 "files_in" (.vlist fin)
  match flatten_async gas env r1 (ruleGet r1 "files_out") 0 with
  | .error e => (fs, st, .error e)
  | .ok fout =>
  let r2 := ruleSet r1 "files_out" (.vlist fout)
  match flatten_async gas env r2 (ruleGet r2 "deps") 0 with
  | .error e => (fs, st, .error e)
  | .ok fdeps =>
  let r3 := ruleSet r2 "deps" (.vlist fdeps)
  match expand_async gas env r3 (ruleGet r3 "build_dir") 0 with
  | .error e => (fs, st, .error e)
  | .ok bdir =>
  let build_dir2 := joinP (.abs env.root) (mkPath bdir)
  let r4 := ruleSet r3 "build_dir2" (.vpath build_dir2)
  match ruleGet r4 "file_root" with
  | .vpath file_root =>
    (match relTo file_root env.root with
     | .error e => (fs, st, .error e)
     | .ok fr_rel =>
     let src_dir := joinP (.abs env.root) fr_rel
     let r5 := ruleSet r4 "src_dir" (.vpath src_dir)
     match toStrs fin, toStrs fout, toStrs fdeps with
     | .error e, _, _ => (fs, st, .error e)
     | .ok _, .error e, _ => (fs, st, .error e)
     | .ok _, .ok _, .error e => (fs, st, .error e)
     | .ok fin_s, .ok fout_s, .ok fdeps_s =>
     let abs_in := fin_s.map (fun f => joinP src_dir (mkPath f))
     let abs_out := fout_s.map (fun f => joinP build_dir2 (mkPath f))
     let abs_deps := fdeps_s.map (fun f => joinP src_dir (mkPath f))
     let r6 := ruleSet (ruleSet (ruleSet r5
       "abs_files_in" (.vlist (abs_in.map Val.vpath)))
       "abs_files_out" (.vlist (abs_out.map Val.vpath)))
       "abs_deps" (.vlist (abs_deps.map Val.vpath))
     match abs_in.mapM (fun p => relTo p env.root),
           abs_out.mapM (fun p => relTo p env.root),
           abs_deps.mapM (fun p => relTo p env.root) with
     | .error e, _, _ => (fs, st, .error e)
     | .ok _, .error e, _ => (fs, st, .error e)
     | .ok _, .ok _, .error e => (fs, st, .error e)
     | .ok rel_in, .ok rel_out, .ok rel_deps =>
     let r7 := ruleSet (ruleSet (ruleSet r6
       "files_in" (.vlist (rel_in.map Val.vpath)))
       "files_out" (.vlist (rel_out.map Val.vpath)))
       "deps" (.vlist (rel_deps.map Val.vpath))
     let reg := register_outs env st.hancho_outs abs_out
     let st1 := { st with hancho_outs := reg.1 }
     match reg.2 with
     | some dup =>
       (fs, st1, .error (.error
         ("Multiple rules build " ++ relpathStr dup env.root ++ "!")))
     | none =>
     match needs_rerun gas env fs (ruleGet r7 "force") abs_in abs_out
         rel_deps (ruleGet r7 "depfile") r7 with
     | .error e => (fs, st1, .error e)
     | .ok none =>
       (fs, { st1 with tasks_skip := st1.tasks_skip + 1 },
        .ok (.vlist (abs_out.map Val.vpath)))
     | .ok (some reason) =>
       let r8 := ruleSet r7 "reason" (.vstr (reasonStr reason))
       match flatten_async gas env r8 (ruleGet r8 "command") 0 with
       | .error e => (fs, st1, .error e)
       | .ok commands =>
       let st2 := { st1 with task_counter := st1.task_counter + 1 }
       match run_commands env fs r8 commands (.vlist []) with
       | (fs2, _, .error e) => (fs2, st2, .error e)
       | (fs2, r9, .ok result) =>
       if pyTruthy (ruleGet r9 "files_in") && pyTruthy (ruleGet r9 "files_out")
           && !pyTruthy (ruleGet r9 "dryrun") then
         match needs_rerun gas env fs2 (ruleGet r9 "force") abs_in abs_out
             rel_deps (ruleGet r9 "depfile") r9 with
         | .error e => (fs2, st2, .error e)
         | .ok (some _) =>
           (fs2, st2, .error (.error "Task still needs rerun after running!"))
         | .ok none =>
           (fs2, { st2 with tasks_pass := st2.tasks_pass + 1 }, .ok result)
       else
         (fs2, { st2 with tasks_pass := st2.tasks_pass + 1 }, .ok result))
  | _ => (fs, st, .error (.error "TypeError: file_root is not a path"))

/-- `Rule.async_call(self)` (hancho.py 496–516): run `dispatch`; a raised
`Cancel` counts the task as skipped, any other exception counts it as
failed; both resolve the promise to a `Cancel` marker *value* — the
coroutine itself never re-raises. -/
def async_call (gas : Nat) (env : Env) (fs : FS) (st : BuildState) (r : Rule) :
    FS × BuildState × Val :=
  match dispatch gas env fs st r with
  | (fs', st', .ok v) => (fs', st', v)
  | (fs', st', .error .cancel) =>
    (fs', { st' with tasks_skip := st'.tasks_skip + 1 }, .vcancel)
  | (fs', st', .error _) =>
    (fs', { st' with tasks_fail := st'.tasks_fail + 1 }, .vcancel)

/-- `Rule.__call__(self, files_in, files_out=None, **kwargs)` (hancho.py
480–492) minus the `tasks_total` increment, which `run_build` performs:
extend the rule into a task, store the per-invocation fields and the
submitting script's directory (`file_root`). -/
def submit (rule : Rule) (files_in : Val) (files_out : Option Val)
    (kwargs : List (String × Val)) (file_root : FPath) : Rule :=
  let task := ruleExtend rule []
  let task := ruleSet task "files_in" files_in
  let task := match files_out with
    | some fo => ruleSet task "files_out" fo
    | none => task
  let task := ruleSet task "file_root" (.vpath file_root)
  kwargs.foldl (fun t kv => ruleSet t kv.1 kv.2) task

/-- The build loop, sequentialized: every submission bumps `tasks_total`
(`Rule.__call__`) and its coroutine then runs to completion
(`async_call`).  Scheduling is single-threaded and cooperative and each
coroutine touches the counters exactly as modelled, so the counter totals
do not depend on the interleaving. -/
def run_build (gas : Nat) (env : Env) : FS → BuildState → List Rule →
    FS × BuildState
  | fs, st, [] => (fs, st)
  | fs, st, t :: ts =>
    let st1 := { st with tasks_total := st.tasks_total + 1 }
    match async_call gas env fs st1 t with
    | (fs2, st2, _v) => run_build gas env fs2 st2 ts

/-- The state `async_main` starts every build from. -/
def initState : BuildState := ⟨[], 0, 0, 0, 0, 0⟩

/-! ## Observation predicates -/

/-- Whether an `Except` is a success. -/
def isOkE {ε α : Type} : Except ε α → Bool
  | .ok _ => true
  | .error _ => false

/-- `v` is a Python list whose elements are all `Path` objects. -/
def pathListB : Val → Bool
  | .vlist xs => xs.all (fun v => match v with | .vpath _ => true | _ => false)
  | _ => false

/-- `v` is a Python list whose elements are all *absolute* paths. -/
def absPathListB : Val → Bool
  | .vlist xs => xs.all (fun v => match v with | .vpath (.abs _) => true | _ => false)
  | _ => false

mutual

/-- No callable occurs in the nested-list skeleton of `v` (the only way
`flatten_async` can emit a function into its result). -/
def noFuncs : Val → Bool
  | .vfunc _ => false
  | .vlist xs => noFuncsList xs
  | _ => true

def noFuncsList : List Val → Bool
  | [] => true
  | v :: rest => noFuncs v && noFuncsList rest

end

/-- A string with no `{...}` span: expansion leaves it unchanged. -/
def noSpan (s : String) : Prop := findSpan s.data = none

instance (s : String) : Decidable (noSpan s) :=
  inferInstanceAs (Decidable (findSpan s.data = none))

/-- A list nested `n` levels deep around a single element. -/
def nestList : Nat → Val → Val
  | 0, v => v
  | n + 1, v => .vlist [nestList n v]

/-- Join character-list tokens with single spaces (spec-side construct for
stating the depfile-parser theorem). -/
def joinTokens : List (List Char) → List Char
  | [] => []
  | [t] => t
  | t :: rest => t ++ ' ' :: joinTokens rest

/-! ## Concrete scenarios

A project rooted at `/r` whose loader has loaded one build file
`/r/build.hancho`.  The `config` rule holds the defaults `main()`
installs (helper callables, `jobs` and the stack-captured `task_dir` are
irrelevant to the claims and elided or simplified to their flag forms). -/

/-- A `callFn` oracle for scenarios with no callable commands. -/
def noCall : String → Rule → FS → Except Exc Val × FS :=
  fun _ _ fs => (.error (.error "no callable"), fs)

/-- Shell oracle: `cc a.c` succeeds and creates `/r/build/x` with mtime
10; any other command succeeds with no filesystem effect. -/
def shellB : String → Val → FS → ProcResult × FS := fun c _ fs =>
  if c = "cc a.c" then
    (⟨"", "", 0⟩, { fs with files := fs.files ++ [(.abs ["r", "build", "x"], 10)] })
  else (⟨"", "", 0⟩, fs)

/-- The build session for the scenario builds. -/
def envB : Env := ⟨["r"], [.abs ["r", "build.hancho"]], evalId, shellB, noCall⟩

/-- A session with the same root and no shell effects, for pure
template-expansion facts. -/
def envPure : Env :=
  ⟨["r"], [.abs ["r", "build.hancho"]], evalId,
   fun _ _ fs => (⟨"", "", 0⟩, fs), noCall⟩

/-- Starting filesystem: the source `/r/a.c` (mtime 5) and the build file
(mtime 1) exist; no outputs yet. -/
def fs0 : FS := ⟨[(.abs ["r", "a.c"], 5), (.abs ["r", "build.hancho"], 1)], [], []⟩

/-- The global `config` rule with `main()`'s defaults. -/
def config : Rule := .mk [
  ("desc", .vstr "{files_in} -> {files_out}"),
  ("build_dir", .vstr "build"),
  ("task_dir", .vstr "."),
  ("files_out", .vlist []),
  ("deps", .vlist []),
  ("force", .vbool false),
  ("dryrun", .vbool false),
  ("quiet", .vbool true),
  ("verbose", .vbool false),
  ("debug", .vbool false),
  ("jobs", .vint 4)] none

/-- Task compiling `a.c` into `x` by running `cc {files_in}`. -/
def taskT1 : Rule := submit (ruleExtend config [("command", .vstr "cc {files_in}")])
  (.vstr "a.c") (some (.vstr "x")) [] (.abs ["r"])

/-- A second task claiming the same output `x`. -/
def taskT2 : Rule := submit (ruleExtend config [("command", .vstr "cc2")])
  (.vstr "a.c") (some (.vstr "x")) [] (.abs ["r"])

/-- Filesystem where `/r/build/x` (mtime 10) is already up to date with
respect to `/r/a.c` (mtime 1) and the build file (mtime 1). -/
def fsS : FS := ⟨[(.abs ["r", "a.c"], 1), (.abs ["r", "build.hancho"], 1),
  (.abs ["r", "build", "x"], 10)], [], []⟩

/-- Up-to-date task producing `x`. -/
def taskU1 : Rule := submit (ruleExtend config [("command", .vstr "true")])
  (.vstr "a.c") (some (.vstr "x")) [] (.abs ["r"])

/-- Task declaring outputs `[y, x]`: `x` collides with `taskU1`. -/
def taskU2 : Rule := submit (ruleExtend config [("command", .vstr "true")])
  (.vstr "a.c") (some (.vlist [.vstr "y", .vstr "x"])) [] (.abs ["r"])

/-- Task declaring output `y`, which `taskU2` already registered while
failing. -/
def taskU3 : Rule := submit (ruleExtend config [("command", .vstr "true")])
  (.vstr "a.c") (some (.vstr "y")) [] (.abs ["r"])

/-- A rule whose `x` expands to a reference to itself. -/
def ruleX : Rule := .mk [("x", .vstr "{x}")] none

/-- A terminating reference chain of length 7:
`w0 → w1 → ... → w5 → w6 → "end"`. -/
def ruleW : Rule := .mk [
  ("w0", .vstr "{w1}"), ("w1", .vstr "{w2}"), ("w2", .vstr "{w3}"),
  ("w3", .vstr "{w4}"), ("w4", .vstr "{w5}"), ("w5", .vstr "{w6}"),
  ("w6", .vstr "end")] none

/-- A rule whose `dep` attribute is a promise that resolved to a Cancel
marker (an upstream task failed). -/
def ruleC : Rule := .mk [("dep", .vpromise .vcancel)] none

/-- A rule holding root-relative `files_in`, as dispatch stores them right
before expanding the command. -/
def ruleF : Rule := .mk
  [("files_in", .vlist [.vpath (.rel ["a.c"]), .vpath (.rel ["b.c"])])] none

/-- A task submitted from a rule with no `command` anywhere on its chain:
dispatch raises an ordinary `ValueError`. -/
def taskNoCmd : Rule := submit config (.vstr "a.c") (some (.vstr "x")) [] (.abs ["r"])

/-- A task whose `files_in` is a promise that resolved to a Cancel marker:
awaiting it during expansion raises the Cancel. -/
def taskCancelled : Rule :=
  submit (ruleExtend config [("command", .vstr "true")])
    (.vpromise .vcancel) (some (.vstr "x")) [] (.abs ["r"])

/-! ## Helper lemmas -/

/-- Inserting only non-members keeps the output registry duplicate-free. -/
theorem register_outs_nodup (env : Env) :
    ∀ (new outs : List FPath), outs.Nodup → (register_outs env outs new).1.Nodup := by
  intro new
  induction new with
  | nil => intro outs h; simpa [register_outs] using h
  | cons f rest ih =>
    intro outs h
    simp only [register_outs]
    split
    · exact h
    · next hmem =>
      exact ih _ (by simp [List.nodup_append, h, hmem])

/-- `splitAtClose` finds the first closing brace. -/
theorem splitAtClose_exact (interior after : List Char)
    (hi : ∀ c ∈ interior, c ≠ cbrace) :
    splitAtClose (interior ++ cbrace :: after) = some (interior, after) := by
  induction interior with
  | nil => simp [splitAtClose]
  | cons c rest ih =>
    have hc : c ≠ cbrace := hi c (by simp)
    simp [splitAtClose, hc, ih (fun d hd => hi d (by simp [hd]))]

/-- `findSpan` locates the span `{interior}` when no `{` precedes it and
the interior has no `}`. -/
theorem findSpan_exact (before interior after : List Char)
    (hb : ∀ c ∈ before, c ≠ obrace) (hi : ∀ c ∈ interior, c ≠ cbrace) :
    findSpan (before ++ obrace :: (interior ++ cbrace :: after))
      = some (before, interior, after) := by
  induction before with
  | nil => simp [findSpan, splitAtClose_exact interior after hi]
  | cons c rest ih =>
    have hc : c ≠ obrace := hb c (by simp)
    simp [findSpan, hc, ih (fun d hd => hb d (by simp [hd]))]

/-- A span-free string expands to itself (at any depth below the cap). -/
theorem expand_nospan (g : Nat) (env : Env) (rule : Rule) (s : String)
    (depth : Nat) (hd : depth ≠ 10) (hs : noSpan s) :
    expand_async (g + 2) env rule (.vstr s) depth = .ok s := by
  have hmk : String.mk s.data = s := by cases s; rfl
  simp [expand_async, expand_spans, hd, noSpan] at *
  simp [hs, hmk]

/-- `str.split()` state machine: a nonempty pending token (in `acc` or
`tc`) followed by a space emits the token and restarts. -/
theorem splitWSAux_push (tc : List Char) :
    ∀ (acc cs : List Char), (∀ c ∈ tc, isPySpace c = false) →
    (acc ≠ [] ∨ tc ≠ []) →
    splitWSAux (tc ++ ' ' :: cs) acc
      = String.mk (acc.reverse ++ tc) :: splitWSAux cs [] := by
  induction tc with
  | nil =>
    intro acc cs _ hne
    have hacc : acc ≠ [] := by tauto
    simp [splitWSAux, isPySpace, hacc]
  | cons c tc' ih =>
    intro acc cs ht hne
    have hc : isPySpace c = false := ht c (by simp)
    have := ih (c :: acc) cs (fun d hd => ht d (by simp [hd])) (Or.inl (by simp))
    simp [splitWSAux, hc, this]

/-- `str.split()` at end of input: the pending token is emitted. -/
theorem splitWSAux_last (tc : List Char) :
    ∀ (acc : List Char), (∀ c ∈ tc, isPySpace c = false) →
    (acc ≠ [] ∨ tc ≠ []) →
    splitWSAux tc acc = [String.mk (acc.reverse ++ tc)] := by
  induction tc with
  | nil =>
    intro acc _ hne
    have hacc : acc ≠ [] := by tauto
    simp [splitWSAux, hacc]
  | cons c tc' ih =>
    intro acc ht hne
    have hc : isPySpace c = false := ht c (by simp)
    have := ih (c :: acc) (fun d hd => ht d (by simp [hd])) (Or.inl (by simp))
    simp [splitWSAux, hc, this]

/-- `str.split()` recovers the tokens from a single-space join of
nonempty whitespace-free tokens. -/
theorem splitWS_joinTokens :
    ∀ (ts : List (List Char)),
    (∀ t ∈ ts, t ≠ [] ∧ ∀ c ∈ t, isPySpace c = false) →
    splitWSAux (joinTokens ts) [] = ts.map String.mk := by
  intro ts
  induction ts with
  | nil => intro _; simp [joinTokens, splitWSAux]
  | cons t rest ih =>
    intro h
    obtain ⟨htne, htc⟩ := h t (by simp)
    match rest with
    | [] =>
      simpa [joinTokens] using splitWSAux_last t [] htc (Or.inr htne)
    | r :: rest' =>
      have hrest := ih (fun u hu => h u (by simp [hu]))
      have hpush := splitWSAux_push t [] (joinTokens (r :: rest')) htc (Or.inr htne)
      simp only [joinTokens]
      simp only [List.map_cons] at hrest ⊢
      rw [hpush, hrest]
      simp

/-- Dispatch leaves `tasks_total` alone and bumps the pass/fail/skip sum
by exactly one on success (once for the skip path, once for the pass
path) and not at all when it raises. -/
theorem dispatch_counters (gas : Nat) (env : Env) (fs : FS) (st : BuildState)
    (r0 : Rule) (fs' : FS) (st' : BuildState) (res : Except Exc Val) :
    dispatch gas env fs st r0 = (fs', st', res) →
    st'.tasks_total = st.tasks_total ∧
    (∀ v, res = .ok v →
      st'.tasks_pass + st'.tasks_fail + st'.tasks_skip
        = st.tasks_pass + st.tasks_fail + st.tasks_skip + 1) ∧
    (∀ e, res = .error e →
      st'.tasks_pass + st'.tasks_fail + st'.tasks_skip
        = st.tasks_pass + st.tasks_fail + st.tasks_skip) := by
  intro h
  unfold dispatch at h
  repeat' first
    | split at h
    | dsimp only at h
  all_goals (injection h with h1 h2; injection h2 with h2 h3; subst h1; subst h2; subst h3)
  all_goals refine ⟨by simp, fun v hv => ?_, fun e he => ?_⟩
  all_goals first
    | omega
    | (simp at hv; done)
    | (simp at he; done)
    | (simp; omega)
    | (simp; done)

theorem async_call_counters (gas : Nat) (env : Env) (fs : FS) (st : BuildState)
    (r : Rule) :
    (async_call gas env fs st r).2.1.tasks_pass + (async_call gas env fs st r).2.1.tasks_fail
        + (async_call gas env fs st r).2.1.tasks_skip
      = st.tasks_pass + st.tasks_fail + st.tasks_skip + 1 ∧
    (async_call gas env fs st r).2.1.tasks_total = st.tasks_total := by
  unfold async_call
  split
  · next fs' st' v heq =>
    obtain ⟨hT, hOk, _⟩ := dispatch_counters gas env fs st r fs' st' (.ok v) heq
    have h1 := hOk v rfl
    constructor <;> (dsimp only; omega)
  · next fs' st' heq =>
    obtain ⟨hT, _, hErr⟩ := dispatch_counters gas env fs st r fs' st' (.error .cancel) heq
    have h1 := hErr .cancel rfl
    constructor <;> (dsimp only; omega)
  · next fs' st' e hne heq =>
    obtain ⟨hT, _, hErr⟩ := dispatch_counters gas env fs st r fs' st' (.error e) heq
    have h1 := hErr e rfl
    constructor <;> (dsimp only; omega)

theorem run_build_counters (gas : Nat) (env : Env) :
    ∀ (ts : List Rule) (fs : FS) (st : BuildState),
    (run_build gas env fs st ts).2.tasks_total = st.tasks_total + ts.length ∧
    (run_build gas env fs st ts).2.tasks_pass + (run_build gas env fs st ts).2.tasks_fail
        + (run_build gas env fs st ts).2.tasks_skip
      = st.tasks_pass + st.tasks_fail + st.tasks_skip + ts.length := by
  intro ts
  induction ts with
  | nil => intro fs st; simp [run_build]
  | cons t rest ih =>
    intro fs st
    have hac := async_call_counters gas env fs { st with tasks_total := st.tasks_total + 1 } t
    simp only [run_build]
    cases hA : async_call gas env fs { st with tasks_total := st.tasks_total + 1 } t with
    | mk fs2 p =>
      cases p with
      | mk st2 v =>
        rw [hA] at hac
        simp only at hac
        obtain ⟨ihT, ihS⟩ := ih fs2 st2
        simp only [List.length_cons]
        constructor <;> omega

/-- `ruleGet` after `ruleSet` on a different key is unchanged. -/
theorem ruleGet_set_ne (r : Rule) (k k' : String) (v : Val) (h : k ≠ k') :
    ruleGet (ruleSet r k v) k' = ruleGet r k' := by
  cases r with
  | mk entries base =>
    cases base with
    | some b => simp only [ruleSet, ruleGet.eq_1, lookupEntry, if_neg h]
    | none => simp only [ruleSet, ruleGet.eq_2, lookupEntry, if_neg h]

theorem pathListB_map (l : List FPath) : pathListB (.vlist (l.map Val.vpath)) = true := by
  induction l with
  | nil => simp [pathListB]
  | cons p rest ih => simpa [pathListB] using ih

theorem flatten_noFuncs_strs :
    ∀ (gas : Nat) (env : Env) (r : Rule),
    (∀ (v : Val) (depth : Nat) (xs : List Val), noFuncs v = true →
      flatten_async gas env r v depth = .ok xs → ∀ x ∈ xs, ∃ s, x = .vstr s) ∧
    (∀ (els : List Val) (depth : Nat) (xs : List Val), noFuncsList els = true →
      flatten_list gas env r els depth = .ok xs → ∀ x ∈ xs, ∃ s, x = .vstr s) := by
  intro gas
  induction gas with
  | zero =>
    intro env r
    constructor
    · intro v depth xs _ h; simp [flatten_async] at h
    · intro els depth xs _ h; simp [flatten_list] at h
  | succ g ih =>
    intro env r
    obtain ⟨ihA, ihL⟩ := ih env r
    constructor
    · intro v depth xs hnf h
      simp only [flatten_async] at h
      refine ihL _ _ _ ?_ h
      cases v <;> simp_all [noFuncs, noFuncsList]
    · intro els depth xs hnf h
      cases els with
      | nil =>
        simp only [flatten_list] at h
        have : ([] : List Val) = xs := by injection h
        subst this
        simp
      | cons e rest =>
        simp only [flatten_list] at h
        simp only [noFuncsList, Bool.and_eq_true] at hnf
        obtain ⟨hne, hnrest⟩ := hnf
        split at h
        · exact absurd h (by simp)
        · next vs hvs =>
          split at h
          · exact absurd h (by simp)
          · next tail htail =>
            have hxs : vs ++ tail = xs := by injection h
            subst hxs
            have htailS : ∀ x ∈ tail, ∃ s, x = .vstr s := ihL _ _ _ hnrest htail
            have hvsS : ∀ x ∈ vs, ∃ s, x = .vstr s := by
              split at hvs
              · next f => simp [noFuncs] at hne
              · next ys => exact ihA _ _ _ hne hvs
              · next hnf1 hnl1 =>
                cases he : expand_async g env r e (depth + 1) with
                | error err => rw [he] at hvs; simp [Except.map] at hvs
                | ok s =>
                  rw [he] at hvs
                  simp [Except.map] at hvs
                  intro x hx
                  rw [hvs.symm] at hx
                  simp at hx
                  exact ⟨s, hx⟩
            intro x hx
            rcases List.mem_append.mp hx with hx | hx
            · exact hvsS x hx
            · exact htailS x hx

theorem ruleGet_proc_sets (r : Rule) (a b : String) (n : Int) (key : String)
    (h1 : "stdout" ≠ key) (h2 : "stderr" ≠ key) (h3 : "returncode" ≠ key) :
    ruleGet (ruleSet (ruleSet (ruleSet r "stdout" (.vstr a)) "stderr" (.vstr b))
      "returncode" (.vint n)) key = ruleGet r key := by
  rw [ruleGet_set_ne _ _ _ _ h3, ruleGet_set_ne _ _ _ _ h2, ruleGet_set_ne _ _ _ _ h1]

theorem run_command_files_out (env : Env) (fs : FS) (r : Rule) (c : Val)
    (fs' : FS) (r' : Rule) (res : Except Exc Val)
    (h : run_command env fs r c = (fs', r', res)) :
    ruleGet r' "files_out" = ruleGet r "files_out" ∧
    ruleGet r' "abs_files_out" = ruleGet r "abs_files_out" := by
  unfold run_command at h
  repeat' first
    | split at h
    | dsimp only at h
  all_goals (injection h with h1 h2; injection h2 with h2 h3; subst h2)
  all_goals first
    | exact ⟨rfl, rfl⟩
    | exact ⟨ruleGet_proc_sets _ _ _ _ _ (by decide) (by decide) (by decide),
             ruleGet_proc_sets _ _ _ _ _ (by decide) (by decide) (by decide)⟩

theorem run_command_ok_pathlist (env : Env) (fs : FS) (r : Rule) (s : String)
    (fs' : FS) (r' : Rule) (v : Val)
    (hfo : pathListB (ruleGet r "files_out") = true)
    (habs : pathListB (ruleGet r "abs_files_out") = true)
    (hrun : run_command env fs r (.vstr s) = (fs', r', .ok v)) :
    pathListB v = true := by
  unfold run_command at hrun
  repeat' first
    | split at hrun
    | dsimp only at hrun
  all_goals try (injection hrun with h1 h2; injection h2 with h2 h3)
  all_goals first
    | exact Except.noConfusion h3
    | (injection h3 with h3
       rw [ruleGet_proc_sets _ _ _ _ _ (by decide) (by decide) (by decide)] at h3
       rw [h3] at hfo
       exact hfo)
    | (injection h3 with h3
       rw [h3] at habs
       exact habs)
    | simp_all

theorem run_commands_ok_pathlist (env : Env) :
    ∀ (cmds : List Val) (fs : FS) (r : Rule) (acc : Val) (fs' : FS) (r' : Rule) (v : Val),
    pathListB (ruleGet r "files_out") = true →
    pathListB (ruleGet r "abs_files_out") = true →
    (∀ c ∈ cmds, ∃ s, c = .vstr s) →
    pathListB acc = true →
    run_commands env fs r cmds acc = (fs', r', .ok v) →
    pathListB v = true := by
  intro cmds
  induction cmds with
  | nil =>
    intro fs r acc fs' r' v hfo habs hstr hacc h
    simp only [run_commands] at h
    injection h with h1 h2
    injection h2 with h2 h3
    injection h3 with h3
    rw [h3] at hacc
    exact hacc
  | cons c rest ih =>
    intro fs r acc fs' r' v hfo habs hstr hacc h
    simp only [run_commands] at h
    split at h
    · next heq =>
      injection h with h1 h2
      injection h2 with h2 h3
      exact Except.noConfusion h3
    · next fs1 r1 v1 heq =>
      obtain ⟨s, rfl⟩ := hstr c (by simp)
      have hpl := run_command_ok_pathlist env fs r s fs1 r1 v1 hfo habs heq
      obtain ⟨hfo1, habs1⟩ := run_command_files_out env fs r (.vstr s) fs1 r1 (.ok v1) heq
      refine ih fs1 r1 v1 fs' r' v ?_ ?_ (fun d hd => hstr d (by simp [hd])) hpl h
      · rw [hfo1]; exact hfo
      · rw [habs1]; exact habs

theorem ruleGet_set_eq (r : Rule) (k : String) (v : Val) :
    ruleGet (ruleSet r k v) k = v := by
  cases r with
  | mk entries base =>
    cases base with
    | some b => simp [ruleSet, ruleGet.eq_1, lookupEntry]
    | none => simp [ruleSet, ruleGet.eq_2, lookupEntry]

theorem pathListB_mapc {α : Type} (g : α → FPath) (l : List α) :
    pathListB (.vlist (l.map (fun x => Val.vpath (g x)))) = true := by
  induction l with
  | nil => rfl
  | cons x rest ih => simpa [pathListB] using ih

theorem pathListB_comp {α : Type} (g : α → FPath) (l : List α) :
    pathListB (.vlist (List.map (Val.vpath ∘ g) l)) = true := by
  simpa [Function.comp] using pathListB_mapc g l

theorem dispatch_ok_pathlist (gas : Nat) (env : Env) (fs : FS) (st : BuildState)
    (r0 : Rule) (fs' : FS) (st' : BuildState) (v : Val)
    (hnf : noFuncs (ruleGet r0 "command") = true)
    (h : dispatch gas env fs st r0 = (fs', st', .ok v)) :
    pathListB v = true := by
  unfold dispatch at h
  repeat' first
    | split at h
    | dsimp only at h
  all_goals (injection h with h1 h2; injection h2 with h2 h3)
  all_goals try (exact Except.noConfusion h3)
  all_goals try
    (injection h3 with h3
     rw [← h3]
     first
       | exact pathListB_comp _ _
       | exact pathListB_mapc _ _
       | exact pathListB_map _)
  · injection h3 with h3
    rw [← h3]
    rename_i xc parts heqCmd xt fs2 r9 resv heqRun hcond xr heqRerun
    refine run_commands_ok_pathlist env parts fs _ (.vlist []) fs2 r9 resv ?_ ?_ ?_ rfl heqRun
    · simp [ruleGet_set_ne, ruleGet_set_eq, pathListB_map, pathListB_mapc, pathListB_comp]
    · simp [ruleGet_set_ne, ruleGet_set_eq, pathListB_map, pathListB_mapc, pathListB_comp]
    · exact (flatten_noFuncs_strs gas env _).1 _ 0 _ (by simpa [ruleGet_set_ne] using hnf) heqCmd
  · injection h3 with h3
    rw [← h3]
    rename_i xc parts heqCmd xt fs2 r9 resv heqRun hcond
    refine run_commands_ok_pathlist env parts fs _ (.vlist []) fs2 r9 resv ?_ ?_ ?_ rfl heqRun
    · simp [ruleGet_set_ne, ruleGet_set_eq, pathListB_map, pathListB_mapc, pathListB_comp]
    · simp [ruleGet_set_ne, ruleGet_set_eq, pathListB_map, pathListB_mapc, pathListB_comp]
    · exact (flatten_noFuncs_strs gas env _).1 _ 0 _ (by simpa [ruleGet_set_ne] using hnf) heqCmd

/-! ## Claims -/

/-- C1 (counterexample): `taskT1` runs its shell command successfully —
the pass counter records it — yet its promise's resolved value is the
*root-relative* output list `[build/x]`, not a list of absolute paths
(and not a Cancel marker), contradicting the claim that a successful
task's promise always resolves to a list of absolute output paths. -/
theorem C1_promise_absolute_counterexample :
    (async_call 100 envB fs0 initState taskT1).2.1.tasks_pass = 1 ∧
    (async_call 100 envB fs0 initState taskT1).2.2
      = .vlist [.vpath (.rel ["build", "x"])] ∧
    absPathListB (async_call 100 envB fs0 initState taskT1).2.2 = false ∧
    (async_call 100 envB fs0 initState taskT1).2.2 ≠ .vcancel := by
  decide

/-- C1 (amended): for a task whose `command` value contains no callables,
the promise's resolved value is either a Cancel marker or a list of path
values — but, per the counterexample, the paths are absolute only on the
skip and dry-run paths; a successful shell command yields the
root-relative output list. -/
theorem C1_promise_value_amended :
    ∀ (gas : Nat) (env : Env) (fs : FS) (st : BuildState) (r : Rule)
      (fs' : FS) (st' : BuildState) (v : Val),
      noFuncs (ruleGet r "command") = true →
      async_call gas env fs st r = (fs', st', v) →
      v = .vcancel ∨ pathListB v = true := by
  intro gas env fs st r fs' st' v hnf h
  unfold async_call at h
  split at h
  · next fs1 st1 v1 heq =>
    injection h with h1 h2
    injection h2 with h2 h3
    right
    rw [← h3]
    exact dispatch_ok_pathlist gas env fs st r fs1 st1 v1 hnf heq
  · injection h with h1 h2
    injection h2 with h2 h3
    left
    exact h3.symm
  · injection h with h1 h2
    injection h2 with h2 h3
    left
    exact h3.symm

/-- C1 witness. -/
theorem C1_promise_value_amended_witness :
    noFuncs (ruleGet taskT1 "command") = true ∧
    ((async_call 100 envB fs0 initState taskT1).2.2 = .vcancel ∨
      pathListB (async_call 100 envB fs0 initState taskT1).2.2 = true) :=
  ⟨by decide,
   C1_promise_value_amended 100 envB fs0 initState taskT1
     (async_call 100 envB fs0 initState taskT1).1
     (async_call 100 envB fs0 initState taskT1).2.1
     (async_call 100 envB fs0 initState taskT1).2.2
     (by decide) rfl⟩

/-- C2: `needs_rerun` performs the spec's checks in the spec's fixed
order — force; no inputs; no outputs; missing output; build-file mtimes;
manual deps mtimes; depfile deps mtimes; input mtimes — returning the
first matching reason and `none` when all pass, every mtime comparison
being `max(...) ≥ min(mtime(output))` (so a same-second edit rebuilds):
the source oracle equals the spec-side oracle on all inputs.  (The only
textual difference is the source's redundant `if files_in` guard before
check 8, vacuous because check 2 already returned on empty inputs.)
The final two conjuncts exercise the `≥` boundary: an input whose mtime
*equals* the minimum output mtime triggers a rebuild, and a strictly
older input does not. -/
theorem C2_needs_rerun_order :
    (∀ (gas : Nat) (env : Env) (fs : FS) (force : Val)
        (abs_files_in abs_files_out deps : List FPath) (depfile : Val) (rule : Rule),
      needs_rerun gas env fs force abs_files_in abs_files_out deps depfile rule
        = needs_rerun_spec gas env fs force abs_files_in abs_files_out deps depfile rule) ∧
    needs_rerun 10 envB
        ⟨[(.abs ["r", "a.c"], 10), (.abs ["r", "build.hancho"], 1),
          (.abs ["r", "build", "x"], 10)], [], []⟩
        (.vbool false) [.abs ["r", "a.c"]] [.abs ["r", "build", "x"]] [] .vnone config
      = .ok (some .inputChanged) ∧
    needs_rerun 10 envB
        ⟨[(.abs ["r", "a.c"], 9), (.abs ["r", "build.hancho"], 1),
          (.abs ["r", "build", "x"], 10)], [], []⟩
        (.vbool false) [.abs ["r", "a.c"]] [.abs ["r", "build", "x"]] [] .vnone config
      = .ok none := by
  refine ⟨?_, by decide, by decide⟩
  intro gas env fs force fin fout deps depfile rule
  unfold needs_rerun needs_rerun_spec
  by_cases hin : fin = []
  · by_cases hf : pyTruthy force = true <;> simp [hf, hin]
  · simp [hin]

/-- C3 (counterexample): a cyclic reference `x = "{x}"` exceeds the
depth-10 cap during expansion, yet expansion *returns a result* (`"{x}"`)
instead of raising: the depth `ValueError` is an ordinary exception and
the literal-preservation `except Exception` one level up swallows it.
The second and third conjuncts show the cap genuinely fired: the
terminating chain `w0 → ... → w6 → "end"` fully expands to `"end"` when
started at depth 1, but started at depth 3 it is cut off at the cap and
yields the *literal* `"{w6}"` — still with no error surfaced. -/
theorem C3_depth_error_counterexample :
    expand_async 200 envPure ruleX (.vstr "{x}") 0 = .ok "{x}" ∧
    expand_async 200 envPure ruleW (.vstr "{w0}") 1 = .ok "end" ∧
    expand_async 200 envPure ruleW (.vstr "{w0}") 3 = .ok "{w6}" := by
  decide

/-- C3 (amended): expansion *entered* at depth 10 always raises the
`ValueError`, and the error does escape expansion when the cap is reached
outside any `{expr}` span — an atom reached through 9 levels of list
nesting fails the expansion.  But when the cap is reached while expanding
a span's evaluation result, the `except Exception` literal-preservation
handler catches the `ValueError` and keeps the literal span, so the
expansion returns a result and the surrounding task does not fail. -/
theorem C3_depth_error_amended :
    (∀ (g : Nat) (env : Env) (r : Rule) (t : Val),
      expand_async (g + 1) env r t 10 = .error (.error "failed to terminate")) ∧
    expand_async 300 envPure ruleW (nestList 9 (.vstr "atom")) 0
      = .error (.error "failed to terminate") ∧
    expand_async 200 envPure ruleX (.vstr "{x}") 9 = .ok "{x}" := by
  refine ⟨fun g env r t => rfl, by decide, by decide⟩

/-- C4: during string expansion, when evaluating a `{expr}` span raises an
ordinary exception, the literal span — braces included — is kept verbatim
in the output, no error is surfaced (the result is `ok`), and expansion
continues past the span: the rest of the output is exactly the expansion
of the remaining text. -/
theorem C4_literal_span_preserved :
    ∀ (g : Nat) (env : Env) (rule : Rule) (before interior after : List Char)
      (depth : Nat) (msg rest : String),
      (∀ c ∈ before, c ≠ obrace) → (∀ c ∈ interior, c ≠ cbrace) →
      env.evalE rule (String.mk interior) = .error (.error msg) →
      expand_spans g env rule after depth = .ok rest →
      expand_spans (g + 1) env rule
          (before ++ obrace :: (interior ++ cbrace :: after)) depth
        = .ok (String.mk before ++ spanLit interior ++ rest) := by
  intro g env rule before interior after depth msg rest hb hi he hrest
  simp [expand_spans, findSpan_exact before interior after hb hi, he, hrest,
    Exc.isException]

/-- C4 witness: `{1 +}` raises a `SyntaxError` under `eval`; expanding
`"ab{1 +}cd"` keeps the span and continues, yielding `"ab{1 +}cd"`. -/
theorem C4_literal_span_preserved_witness :
    envPure.evalE ruleW (String.mk ['1', ' ', '+']) = .error (.error "eval raised") ∧
    expand_spans 11 envPure ruleW
        (['a', 'b'] ++ obrace :: (['1', ' ', '+'] ++ cbrace :: ['c', 'd'])) 0
      = .ok (String.mk ['a', 'b'] ++ spanLit ['1', ' ', '+'] ++ "cd") :=
  ⟨by decide,
   C4_literal_span_preserved 10 envPure ruleW ['a', 'b'] ['1', ' ', '+'] ['c', 'd']
     0 "eval raised" "cd" (by decide) (by decide) (by decide) (by decide)⟩

/-- C5: (i) a task whose dispatch raises an ordinary (non-Cancel)
exception increments the fail counter and resolves its promise to a
Cancel marker; (ii) a task whose dispatch raises a Cancel — observed
while awaiting a dependency — increments the skip counter and also
resolves to a Cancel marker; in both cases the Cancel is the *returned
value* of `async_call`, never a raised exception.  (iii) A Cancel
raised while expanding a `{expr}` span is not swallowed by the
literal-preservation `except Exception` handler: it propagates out of
the span loop. -/
theorem C5_cancel_propagation :
    (∀ (gas : Nat) (env : Env) (fs : FS) (st : BuildState) (r : Rule)
        (fs' : FS) (st' : BuildState) (msg : String),
      dispatch gas env fs st r = (fs', st', .error (.error msg)) →
      async_call gas env fs st r
        = (fs', { st' with tasks_fail := st'.tasks_fail + 1 }, .vcancel)) ∧
    (∀ (gas : Nat) (env : Env) (fs : FS) (st : BuildState) (r : Rule)
        (fs' : FS) (st' : BuildState),
      dispatch gas env fs st r = (fs', st', .error .cancel) →
      async_call gas env fs st r
        = (fs', { st' with tasks_skip := st'.tasks_skip + 1 }, .vcancel)) ∧
    (∀ (g : Nat) (env : Env) (rule : Rule) (before interior after : List Char)
        (depth : Nat),
      (∀ c ∈ before, c ≠ obrace) → (∀ c ∈ interior, c ≠ cbrace) →
      depth + 1 ≠ 10 →
      env.evalE rule (String.mk interior) = .ok (.vpromise .vcancel) →
      expand_spans (g + 2) env rule
          (before ++ obrace :: (interior ++ cbrace :: after)) depth
        = .error .cancel) := by
  refine ⟨?_, ?_, ?_⟩
  · intro gas env fs st r fs' st' msg h
    simp [async_call, h]
  · intro gas env fs st r fs' st' h
    simp [async_call, h]
  · intro g env rule before interior after depth hb hi hd he
    simp [expand_spans, findSpan_exact before interior after hb hi, he,
      expand_async, hd, Exc.isException]

/-- C5 witness: `taskNoCmd` (ordinary error → fail), `taskCancelled`
(Cancel while awaiting `files_in` → skip), and a Cancel delivered through
the span `{dep}`. -/
theorem C5_cancel_propagation_witness :
    dispatch 100 envB fs0 initState taskNoCmd
      = (fs0, initState, .error (.error "Command missing for input files!")) ∧
    async_call 100 envB fs0 initState taskNoCmd
      = (fs0, ⟨[], 0, 0, 1, 0, 0⟩, .vcancel) ∧
    dispatch 100 envB fs0 initState taskCancelled
      = (fs0, initState, .error .cancel) ∧
    async_call 100 envB fs0 initState taskCancelled
      = (fs0, ⟨[], 0, 0, 0, 1, 0⟩, .vcancel) ∧
    envPure.evalE ruleC (String.mk ['d', 'e', 'p']) = .ok (.vpromise .vcancel) ∧
    expand_spans 22 envPure ruleC
        ([] ++ obrace :: (['d', 'e', 'p'] ++ cbrace :: [])) 0
      = .error .cancel :=
  ⟨by decide,
   C5_cancel_propagation.1 100 envB fs0 initState taskNoCmd fs0 initState
     "Command missing for input files!" (by decide),
   by decide,
   C5_cancel_propagation.2.1 100 envB fs0 initState taskCancelled fs0 initState
     (by decide),
   by decide,
   C5_cancel_propagation.2.2 20 envPure ruleC [] ['d', 'e', 'p'] [] 0
     (by decide) (by decide) (by decide) (by decide)⟩

/-- C6 (counterexample): `flatten` is *not* nesting-insensitive, because
each nesting level raises the depth passed to element expansion by one.
With the terminating chain `w0 → ... → w6 → "end"`, the flat list
`[a, b, "{w0}"]` flattens to `[a, b, "end"]`, but the nested
`[a, [b, ["{w0}"]]]` flattens to `[a, b, "{w6}"]` — the element's
expansion hits the depth cap two levels earlier — so the two are not
equivalent as expansion inputs. -/
theorem C6_flatten_counterexample :
    flatten_async 200 envPure ruleW
        (.vlist [.vstr "a", .vlist [.vstr "b", .vlist [.vstr "{w0}"]]]) 0
      = .ok [.vstr "a", .vstr "b", .vstr "{w6}"] ∧
    flatten_async 200 envPure ruleW (.vlist [.vstr "a", .vstr "b", .vstr "{w0}"]) 0
      = .ok [.vstr "a", .vstr "b", .vstr "end"] ∧
    flatten_async 200 envPure ruleW
        (.vlist [.vstr "a", .vlist [.vstr "b", .vlist [.vstr "{w0}"]]]) 0
      ≠ flatten_async 200 envPure ruleW (.vlist [.vstr "a", .vstr "b", .vstr "{w0}"]) 0 := by
  decide

/-- C6 (amended): expanding a list flattens it, expands every element and
joins the results with exactly one space — and for elements whose
expansion does not approach the depth cap (here: span-free strings, whose
expansion is depth-insensitive) nesting *is* irrelevant:
`[a, [b, [c]]]` and `[a, b, c]` flatten to the same list.  In general each
nesting level raises the depth handed to element expansion by one, so the
equivalence can fail within reach of the cap (see the counterexample).
The claim's example holds: with root-relative `files_in = [a.c, b.c]`,
`"cc {files_in}"` expands to `"cc a.c b.c"` — one space between the
joined elements. -/
theorem C6_flatten_amended :
    (∀ (g : Nat) (env : Env) (rule : Rule) (a b c : String),
      noSpan a → noSpan b → noSpan c →
      flatten_async (g + 10) env rule
          (.vlist [.vstr a, .vlist [.vstr b, .vlist [.vstr c]]]) 0
        = .ok [.vstr a, .vstr b, .vstr c] ∧
      flatten_async (g + 10) env rule (.vlist [.vstr a, .vstr b, .vstr c]) 0
        = .ok [.vstr a, .vstr b, .vstr c]) ∧
    expand_async 100 envPure ruleF (.vstr "cc {files_in}") 0 = .ok "cc a.c b.c" := by
  refine ⟨?_, by decide⟩
  intro g env rule a b c hA hB hC
  have ha8 : expand_async (g + 8) env rule (.vstr a) 1 = .ok a :=
    expand_nospan (g + 6) env rule a 1 (by omega) hA
  have hb5 : expand_async (g + 5) env rule (.vstr b) 2 = .ok b :=
    expand_nospan (g + 3) env rule b 2 (by omega) hB
  have hc2 : expand_async (g + 2) env rule (.vstr c) 3 = .ok c :=
    expand_nospan g env rule c 3 (by omega) hC
  have hb7 : expand_async (g + 7) env rule (.vstr b) 1 = .ok b :=
    expand_nospan (g + 5) env rule b 1 (by omega) hB
  have hc6 : expand_async (g + 6) env rule (.vstr c) 1 = .ok c :=
    expand_nospan (g + 4) env rule c 1 (by omega) hC
  constructor
  · simp [flatten_async, flatten_list, ha8, hb5, hc2, Except.map]
  · simp [flatten_async, flatten_list, ha8, hb7, hc6, Except.map]

/-- C6 witness. -/
theorem C6_flatten_amended_witness :
    noSpan "p" ∧ noSpan "q" ∧ noSpan "s" ∧
    flatten_async 10 envPure config
        (.vlist [.vstr "p", .vlist [.vstr "q", .vlist [.vstr "s"]]]) 0
      = .ok [.vstr "p", .vstr "q", .vstr "s"] ∧
    flatten_async 10 envPure config (.vlist [.vstr "p", .vstr "q", .vstr "s"]) 0
      = .ok [.vstr "p", .vstr "q", .vstr "s"] :=
  ⟨by decide, by decide, by decide,
   (C6_flatten_amended.1 0 envPure config "p" "q" "s"
     (by decide) (by decide) (by decide)).1,
   (C6_flatten_amended.1 0 envPure config "p" "q" "s"
     (by decide) (by decide) (by decide)).2⟩

/-- C7: outputs are globally unique.  (i) The registry never acquires a
duplicate.  (ii) In the two-task build where `taskT1` and `taskT2` both
declare output `x`: the build ends with one pass and one fail, the shell
log shows only `taskT1`'s command (`taskT2` failed *before* executing its
command), and `taskT2`'s dispatch — run from the post-`taskT1` state —
raises the naming error whose message holds the duplicate path relative
to the project root (`build/x`). -/
theorem C7_unique_outputs :
    (∀ (env : Env) (new outs : List FPath), outs.Nodup →
      (register_outs env outs new).1.Nodup) ∧
    (run_build 100 envB fs0 initState [taskT1, taskT2]).2
      = ⟨[.abs ["r", "build", "x"]], 2, 1, 1, 0, 1⟩ ∧
    (run_build 100 envB fs0 initState [taskT1, taskT2]).1.log = ["cc a.c"] ∧
    (dispatch 100 envB (async_call 100 envB fs0 ⟨[], 1, 0, 0, 0, 0⟩ taskT1).1
        { (async_call 100 envB fs0 ⟨[], 1, 0, 0, 0, 0⟩ taskT1).2.1 with tasks_total := 2 }
        taskT2).2.2
      = .error (.error "Multiple rules build build/x!") := by
  refine ⟨register_outs_nodup, by decide, by decide, by decide⟩

/-- C7 witness. -/
theorem C7_unique_outputs_witness :
    ([FPath.abs ["r", "build", "x"]] : List FPath).Nodup ∧
    (register_outs envB [FPath.abs ["r", "build", "x"]]
      [FPath.abs ["r", "build", "y"]]).1.Nodup :=
  ⟨by decide, C7_unique_outputs.1 envB [FPath.abs ["r", "build", "y"]]
    [FPath.abs ["r", "build", "x"]] (by decide)⟩

/-- C8: at build termination the total counter equals pass + fail + skip:
every submission bumps the total exactly once, and every completed task
coroutine bumps exactly one of pass (dispatch returned), fail (ordinary
exception) or skip (up to date, or upstream Cancel). -/
theorem C8_counter_sum :
    ∀ (gas : Nat) (env : Env) (fs : FS) (ts : List Rule),
      (run_build gas env fs initState ts).2.tasks_total
        = (run_build gas env fs initState ts).2.tasks_pass
          + (run_build gas env fs initState ts).2.tasks_fail
          + (run_build gas env fs initState ts).2.tasks_skip := by
  intro gas env fs ts
  obtain ⟨hT, hS⟩ := run_build_counters gas env ts fs initState
  simp [initState] at hT hS ⊢
  omega

/-- C9: parsing a GCC `.d` depfile splits the contents on whitespace,
discards the first token (the target), keeps the remaining tokens as the
dependency paths, and strips the line-continuation backslash tokens.
Stated on an arbitrary whitespace-joined token list and on a concrete
two-line depfile with a backslash continuation. -/
theorem C9_gcc_depfile :
    (∀ (target : List Char) (deps : List (List Char)),
      (target ≠ [] ∧ ∀ c ∈ target, isPySpace c = false) →
      (∀ t ∈ deps, t ≠ [] ∧ ∀ c ∈ t, isPySpace c = false) →
      parseGccDepfile (String.mk (joinTokens (target :: deps)))
        = (deps.map String.mk).filter (fun d => d ≠ "\\")) ∧
    parseGccDepfile "main.o: main.c \\\n header.h" = ["main.c", "header.h"] := by
  refine ⟨?_, by decide⟩
  intro target deps htarget hdeps
  have hall : ∀ t ∈ target :: deps, t ≠ [] ∧ ∀ c ∈ t, isPySpace c = false := by
    intro t ht
    rcases List.mem_cons.mp ht with h | h
    · exact h ▸ htarget
    · exact hdeps t h
  have hsplit := splitWS_joinTokens (target :: deps) hall
  simp only [parseGccDepfile, pySplitWS]
  rw [hsplit]
  simp

/-- C9 witness. -/
theorem C9_gcc_depfile_witness :
    ("main.o:".data ≠ [] ∧ ∀ c ∈ "main.o:".data, isPySpace c = false) ∧
    parseGccDepfile
        (String.mk (joinTokens ["main.o:".data, "main.c".data, "\\".data, "header.h".data]))
      = ["main.c", "header.h"] :=
  ⟨by decide,
   by
    have := C9_gcc_depfile.1 "main.o:".data
      ["main.c".data, "\\".data, "header.h".data] (by decide) (by decide)
    simpa using this⟩

/-- C10: output registration is not atomic per task.  In the three-task
build (`taskU1` out `x`, `taskU2` out `[y, x]`, `taskU3` out `y`):
`taskU1` is up to date (skip), `taskU2` fails on the duplicate `x` — but
its dispatch has already inserted `y`, which stays in the registry — and
`taskU3`, declaring only `y`, then also fails as a duplicate.  No task
ever executes a command. -/
theorem C10_registration_not_atomic :
    (run_build 100 envB fsS initState [taskU1, taskU2, taskU3]).2
      = ⟨[.abs ["r", "build", "x"], .abs ["r", "build", "y"]], 3, 0, 2, 1, 0⟩ ∧
    (run_build 100 envB fsS initState [taskU1, taskU2, taskU3]).1.log = [] ∧
    (dispatch 100 envB fsS
        { (async_call 100 envB fsS ⟨[], 1, 0, 0, 0, 0⟩ taskU1).2.1 with tasks_total := 2 }
        taskU2).2.1.hancho_outs
      = [.abs ["r", "build", "x"], .abs ["r", "build", "y"]] ∧
    (dispatch 100 envB fsS
        { (async_call 100 envB fsS ⟨[], 1, 0, 0, 0, 0⟩ taskU1).2.1 with tasks_total := 2 }
        taskU2).2.2
      = .error (.error "Multiple rules build build/x!") ∧
    (dispatch 100 envB fsS
        ⟨[.abs ["r", "build", "x"], .abs ["r", "build", "y"]], 3, 0, 1, 1, 0⟩
        taskU3).2.2
      = .error (.error "Multiple rules build build/y!") := by
  decide

end Hancho
